import Mathlib

/-!
Shallow embedding of `src/embedded-graphics/src/pixelcolor/conversion.rs`:
conversions between RGB pixel color types of several bit depths, 8-bit
grayscale (`Gray8`) and binary colors.  Machine integers (`u8`, `u16`) are
modelled as `Nat` with explicit reductions `% 256` and `% 65536` at every
cast and at every operation that could overflow.  The container color types
(`rgb_color.rs`, `gray_color.rs`, `binary_color.rs`) are not part of the
sources; they are modelled from the specification, which describes them as
simple value types with component accessors, per-channel maxima and named
constants.
-/

/-- Convert color channel values from one bitdepth to another.
Mirrors `convert_channel` from `conversion.rs`: the `u8` arguments are cast
to `u16` (the inner `% 256` models the `u8` type of each argument), the
multiplication and addition happen in `u16` (hence `% 65536`), the division
is a `u16` division, and the result is cast back to `u8` (the final
`% 256`). -/
def convert_channel (value from_max to_max : Nat) : Nat :=
  ((value % 256 * (to_max % 256) % 65536 + from_max % 256 / 2) % 65536
      / (from_max % 256)) % 256

/-- Modelled from the spec: the six RGB color container types (their file
`rgb_color.rs` is not among the sources), identified by name: three
bit-depth groups (5-5-5, 5-6-5, 8-8-8) in two channel orders each. -/
inductive RgbKind
  | rgb555
  | bgr555
  | rgb565
  | bgr565
  | rgb888
  | bgr888
deriving DecidableEq, Fintype

/-- Modelled from the spec: the per-channel maximum `MAX_R` of each RGB
type (5 bits → 31, 8 bits → 255). -/
def MAX_R : RgbKind → Nat
  | .rgb555 | .bgr555 | .rgb565 | .bgr565 => 31
  | .rgb888 | .bgr888 => 255

/-- Modelled from the spec: the per-channel maximum `MAX_G` of each RGB
type (5 bits → 31, 6 bits → 63, 8 bits → 255). -/
def MAX_G : RgbKind → Nat
  | .rgb555 | .bgr555 => 31
  | .rgb565 | .bgr565 => 63
  | .rgb888 | .bgr888 => 255

/-- Modelled from the spec: the per-channel maximum `MAX_B` of each RGB
type (5 bits → 31, 8 bits → 255). -/
def MAX_B : RgbKind → Nat
  | .rgb555 | .bgr555 | .rgb565 | .bgr565 => 31
  | .rgb888 | .bgr888 => 255

/-- Modelled from the spec: a value of an RGB color type, seen through its
accessors `r()`, `g()`, `b()`.  The spec says channel order (RGB vs BGR) is
purely an accessor/constructor mapping, so a value is fully described by
its three accessor results. -/
structure RgbVal where
  r : Nat
  g : Nat
  b : Nat
deriving DecidableEq

/-- The invariant the collaborator types guarantee: every channel is in the
closed range `[0, max]`, and fits in a `u8`. -/
def RgbVal.valid (k : RgbKind) (c : RgbVal) : Prop :=
  c.r ≤ MAX_R k ∧ c.g ≤ MAX_G k ∧ c.b ≤ MAX_B k

instance (k : RgbKind) (c : RgbVal) : Decidable (c.valid k) := by
  unfold RgbVal.valid
  infer_instance

/-- Modelled from the spec: the names of the eight standard constant
colors every RGB type exposes. -/
inductive ConstName
  | black
  | red
  | green
  | blue
  | yellow
  | magenta
  | cyan
  | white
deriving DecidableEq, Fintype

/-- Modelled from the spec: the named constants of each RGB type; each is
a pure color, so every channel is either `0` or that channel's maximum. -/
def constColor (k : RgbKind) : ConstName → RgbVal
  | .black => ⟨0, 0, 0⟩
  | .red => ⟨MAX_R k, 0, 0⟩
  | .green => ⟨0, MAX_G k, 0⟩
  | .blue => ⟨0, 0, MAX_B k⟩
  | .yellow => ⟨MAX_R k, MAX_G k, 0⟩
  | .magenta => ⟨MAX_R k, 0, MAX_B k⟩
  | .cyan => ⟨0, MAX_G k, MAX_B k⟩
  | .white => ⟨MAX_R k, MAX_G k, MAX_B k⟩

/-- The `From<$other_type> for $type` conversion generated by
`impl_rgb_conversion` in `conversion.rs`: each channel is rescaled
independently from the source maxima to the destination maxima. -/
def rgbFrom (src dst : RgbKind) (other : RgbVal) : RgbVal :=
  ⟨convert_channel other.r (MAX_R src) (MAX_R dst),
   convert_channel other.g (MAX_G src) (MAX_G dst),
   convert_channel other.b (MAX_B src) (MAX_B dst)⟩

/-- The `Into<Rgb888>` bound used by `intensity` in `conversion.rs`: for
`Rgb888` itself the reflexive `From` instance is the identity, every other
RGB type goes through the generated channel-rescaling conversion. -/
def toRgb888 : RgbKind → RgbVal → RgbVal
  | .rgb888, c => c
  | .rgb555, c => rgbFrom .rgb555 .rgb888 c
  | .bgr555, c => rgbFrom .bgr555 .rgb888 c
  | .rgb565, c => rgbFrom .rgb565 .rgb888 c
  | .bgr565, c => rgbFrom .bgr565 .rgb888 c
  | .bgr888, c => rgbFrom .bgr888 .rgb888 c

/-- `intensity` from `conversion.rs`: convert to 8 bits per channel and
average the channels.  The sum is computed in `u16` (each `u8` accessor
cast up, hence `% 256` on each term and `% 65536` on the sum), divided by
3 in `u16`, and cast back to `u8` (the final `% 256`). -/
def intensity (k : RgbKind) (c : RgbVal) : Nat :=
  ((toRgb888 k c).r % 256 + (toRgb888 k c).g % 256 + (toRgb888 k c).b % 256)
      % 65536 / 3 % 256

/-- Modelled from the spec: the 8-bit grayscale value type (`gray_color.rs`
is not among the sources), seen through its accessor `y()`. -/
structure Gray8 where
  y : Nat
deriving DecidableEq

/-- Modelled from the spec: the maximum luma value of `Gray8` (8 bits). -/
def MAX_Y : Nat := 255

/-- Modelled from the spec: the two-state binary color type
(`binary_color.rs` is not among the sources). -/
inductive BinaryColor
  | off
  | on
deriving DecidableEq, Fintype

/-- Modelled from the spec: the binary type's two-variant selection
mechanism, choosing one of two supplied values per variant. -/
def BinaryColor.map_color {α : Type} (c : BinaryColor) (valueOff valueOn : α) : α :=
  match c with
  | .off => valueOff
  | .on => valueOn

/-- The `From<Gray8> for $type` conversion generated by
`impl_grayscale_conversions`: the luma value is used for all three
channels, each rescaled from `MAX_Y` to the destination channel maximum. -/
def rgbFromGray8 (k : RgbKind) (other : Gray8) : RgbVal :=
  ⟨convert_channel other.y MAX_Y (MAX_R k),
   convert_channel other.y MAX_Y (MAX_G k),
   convert_channel other.y MAX_Y (MAX_B k)⟩

/-- The `From<$type> for Gray8` conversion generated by
`impl_grayscale_conversions`: the HSI intensity becomes the luma. -/
def gray8FromRgb (k : RgbKind) (other : RgbVal) : Gray8 :=
  ⟨intensity k other⟩

/-- The `From<BinaryColor> for $type` conversion generated by
`impl_grayscale_conversions`: `Off` maps to black, `On` to white. -/
def rgbFromBinaryColor (k : RgbKind) (color : BinaryColor) : RgbVal :=
  color.map_color (constColor k .black) (constColor k .white)

/-- The `From<$type> for BinaryColor` conversion generated by
`impl_grayscale_conversions`: threshold the intensity at 128. -/
def binaryFromRgb (k : RgbKind) (other : RgbVal) : BinaryColor :=
  if 128 ≤ intensity k other then .on else .off

/-! ### Helper lemmas about `convert_channel` -/

/-- The rounded rescale formula never exceeds the destination maximum. -/
theorem div_formula_le_to_max (v fm tm : Nat) (hv : v ≤ fm) :
    (v * tm + fm / 2) / fm ≤ tm := by
  rcases Nat.eq_zero_or_pos fm with h0 | hpos
  · subst h0
    simp_all
  · calc (v * tm + fm / 2) / fm ≤ (fm * tm + fm / 2) / fm := by
          apply Nat.div_le_div_right
          have : v * tm ≤ fm * tm := Nat.mul_le_mul_right tm hv
          omega
    _ = tm + fm / 2 / fm := by
          rw [Nat.mul_add_div hpos]
    _ = tm := by
          have : fm / 2 < fm := Nat.div_lt_self hpos (by omega)
          rw [Nat.div_eq_of_lt this]
          omega

/-- For `u8`-sized inputs, all the intermediate reductions in
`convert_channel` are no-ops: it computes the exact rounding formula. -/
theorem convert_channel_eq_formula (v fm tm : Nat) (hv : v ≤ fm)
    (hf : fm ≤ 255) (ht : tm ≤ 255) :
    convert_channel v fm tm = (v * tm + fm / 2) / fm := by
  unfold convert_channel
  have hv' : v % 256 = v := Nat.mod_eq_of_lt (by omega)
  have hf' : fm % 256 = fm := Nat.mod_eq_of_lt (by omega)
  have ht' : tm % 256 = tm := Nat.mod_eq_of_lt (by omega)
  rw [hv', hf', ht']
  have hmul : v * tm ≤ 65025 := Nat.mul_le_mul (show v ≤ 255 by omega) ht
  have h1 : v * tm % 65536 = v * tm := Nat.mod_eq_of_lt (by omega)
  rw [h1]
  have h2 : (v * tm + fm / 2) % 65536 = v * tm + fm / 2 :=
    Nat.mod_eq_of_lt (by omega)
  rw [h2]
  have h3 := div_formula_le_to_max v fm tm hv
  exact Nat.mod_eq_of_lt (by omega)

/-- Rescaling with equal source and destination maxima is the identity. -/
theorem convert_channel_id (v m : Nat) (h1 : 1 ≤ m) (h255 : m ≤ 255)
    (hv : v ≤ m) : convert_channel v m m = v := by
  rw [convert_channel_eq_formula v m m hv h255 h255]
  have hm : v * m = m * v := Nat.mul_comm v m
  rw [hm, Nat.mul_add_div h1]
  have : m / 2 < m := Nat.div_lt_self h1 (by omega)
  rw [Nat.div_eq_of_lt this]
  omega

/-- The rounding formula is the round-half-up of the exact quotient:
`2 * q * fm ≤ 2 * x + fm < 2 * (q + 1) * fm` characterises
`q = round-half-up (x / fm)` (the lower tie `x / fm = q - 1/2` included,
the upper tie excluded, i.e. resolved upward). -/
theorem div_formula_half_up (x fm : Nat) (hpos : 0 < fm) :
    2 * ((x + fm / 2) / fm) * fm ≤ 2 * x + fm ∧
      2 * x + fm < 2 * ((x + fm / 2) / fm + 1) * fm := by
  have h1 : (x + fm / 2) / fm * fm ≤ x + fm / 2 := Nat.div_mul_le_self _ _
  have h2 : x + fm / 2 < (x + fm / 2) / fm * fm + fm := Nat.lt_div_mul_add hpos
  have e1 : 2 * ((x + fm / 2) / fm) * fm = 2 * ((x + fm / 2) / fm * fm) := by
    ring
  have e2 : 2 * ((x + fm / 2) / fm + 1) * fm
      = 2 * ((x + fm / 2) / fm * fm) + 2 * fm := by
    ring
  constructor
  · rw [e1]
    have h3 : 2 * ((x + fm / 2) / fm * fm) ≤ 2 * (x + fm / 2) :=
      Nat.mul_le_mul_left 2 h1
    omega
  · rw [e2]
    have h4 : 2 * (x + fm / 2) + 2 ≤ 2 * ((x + fm / 2) / fm * fm) + 2 * fm := by
      omega
    omega

/-- The rescaled channel never exceeds the destination maximum. -/
theorem convert_channel_le (v fm tm : Nat) (hv : v ≤ fm) (hf : fm ≤ 255)
    (ht : tm ≤ 255) : convert_channel v fm tm ≤ tm := by
  rw [convert_channel_eq_formula v fm tm hv hf ht]
  exact div_formula_le_to_max v fm tm hv

/-- Both `MAX_R` bounds used when instantiating the rescaler lemmas. -/
theorem MAX_R_bounds (k : RgbKind) : 1 ≤ MAX_R k ∧ MAX_R k ≤ 255 := by
  cases k <;> decide

/-- Both `MAX_G` bounds used when instantiating the rescaler lemmas. -/
theorem MAX_G_bounds (k : RgbKind) : 1 ≤ MAX_G k ∧ MAX_G k ≤ 255 := by
  cases k <;> decide

/-- Both `MAX_B` bounds used when instantiating the rescaler lemmas. -/
theorem MAX_B_bounds (k : RgbKind) : 1 ≤ MAX_B k ∧ MAX_B k ≤ 255 := by
  cases k <;> decide

/-! ### Claim theorems -/

/-- C2: for `v ≤ from_max`, `from_max ≥ 1` and `u8`-sized arguments,
`convert_channel v from_max to_max` equals
`(v * to_max + from_max / 2) / from_max` in exact integer arithmetic, and
that value is the nearest integer to the exact quotient
`v * to_max / from_max` with ties rounded up: `q` is characterised by
`q - 1/2 ≤ v * to_max / from_max < q + 1/2`, written multiplied out over
`Nat`. -/
theorem convert_channel_rounds_half_up (v fm tm : Nat) (hv : v ≤ fm)
    (hf1 : 1 ≤ fm) (hf : fm ≤ 255) (ht : tm ≤ 255) :
    convert_channel v fm tm = (v * tm + fm / 2) / fm ∧
      2 * convert_channel v fm tm * fm ≤ 2 * (v * tm) + fm ∧
      2 * (v * tm) + fm < 2 * (convert_channel v fm tm + 1) * fm := by
  have he := convert_channel_eq_formula v fm tm hv hf ht
  have hb := div_formula_half_up (v * tm) fm hf1
  rw [he]
  exact ⟨rfl, hb.1, hb.2⟩

/-- Witness for C2 at `v = 3`, `from_max = 31`, `to_max = 255`. -/
theorem convert_channel_rounds_half_up_witness :
    (3 : Nat) ≤ 31 ∧ (1 : Nat) ≤ 31 ∧ (31 : Nat) ≤ 255 ∧ (255 : Nat) ≤ 255 ∧
      (convert_channel 3 31 255 = (3 * 255 + 31 / 2) / 31 ∧
        2 * convert_channel 3 31 255 * 31 ≤ 2 * (3 * 255) + 31 ∧
        2 * (3 * 255) + 31 < 2 * (convert_channel 3 31 255 + 1) * 31) :=
  ⟨by decide, by decide, by decide, by decide,
    convert_channel_rounds_half_up 3 31 255 (by decide) (by decide) (by decide)
      (by decide)⟩

/-- C9: for `u8`-sized arguments the `u16` intermediate
`v * to_max + from_max / 2` is at most `65152 < 2 ^ 16`, the quotient is at
most `to_max ≤ 255`, so every reduction (`% 65536`, `% 256`) in
`convert_channel` is a no-op and the function computes the exact
mathematical formula. -/
theorem convert_channel_no_overflow (v fm tm : Nat) (hv : v ≤ fm)
    (hf : fm ≤ 255) (ht : tm ≤ 255) :
    v * tm + fm / 2 ≤ 65152 ∧ (v * tm + fm / 2) / fm ≤ tm ∧
      convert_channel v fm tm = (v * tm + fm / 2) / fm := by
  have hmul : v * tm ≤ 65025 := Nat.mul_le_mul (show v ≤ 255 by omega) ht
  exact ⟨by omega, div_formula_le_to_max v fm tm hv,
    convert_channel_eq_formula v fm tm hv hf ht⟩

/-- Witness for C9 at `v = 255 = from_max = to_max` (the largest
intermediate value). -/
theorem convert_channel_no_overflow_witness :
    (255 : Nat) ≤ 255 ∧
      (255 * 255 + 255 / 2 ≤ 65152 ∧ (255 * 255 + 255 / 2) / 255 ≤ 255 ∧
        convert_channel 255 255 255 = (255 * 255 + 255 / 2) / 255) :=
  ⟨by decide,
    convert_channel_no_overflow 255 255 255 (by decide) (by decide) (by decide)⟩

/-- C8: the rescaler is monotonic non-decreasing in the channel value. -/
theorem convert_channel_monotone (v1 v2 fm tm : Nat) (h12 : v1 ≤ v2)
    (hv : v2 ≤ fm) (_hf1 : 1 ≤ fm) (hf : fm ≤ 255) (ht : tm ≤ 255) :
    convert_channel v1 fm tm ≤ convert_channel v2 fm tm := by
  rw [convert_channel_eq_formula v1 fm tm (le_trans h12 hv) hf ht,
    convert_channel_eq_formula v2 fm tm hv hf ht]
  apply Nat.div_le_div_right
  have : v1 * tm ≤ v2 * tm := Nat.mul_le_mul_right tm h12
  omega

/-- Witness for C8 at `v1 = 10 ≤ v2 = 20`, `from_max = 63`,
`to_max = 255`. -/
theorem convert_channel_monotone_witness :
    (10 : Nat) ≤ 20 ∧ (20 : Nat) ≤ 63 ∧ (1 : Nat) ≤ 63 ∧ (63 : Nat) ≤ 255 ∧
      (255 : Nat) ≤ 255 ∧ convert_channel 10 63 255 ≤ convert_channel 20 63 255 :=
  ⟨by decide, by decide, by decide, by decide, by decide,
    convert_channel_monotone 10 20 63 255 (by decide) (by decide) (by decide)
      (by decide) (by decide)⟩

/-- C3: the rescaler output always lies in `[0, to_max]`; consequently the
value built by any RGB-to-RGB conversion is valid for the destination type,
and the value built by any grayscale-to-RGB conversion is valid for the
destination type. -/
theorem conversion_output_in_range :
    (∀ v fm tm : Nat, v ≤ fm → 1 ≤ fm → fm ≤ 255 → tm ≤ 255 →
      convert_channel v fm tm ≤ tm) ∧
    (∀ src dst : RgbKind, ∀ c : RgbVal, c.valid src →
      (rgbFrom src dst c).valid dst) ∧
    (∀ k : RgbKind, ∀ g : Gray8, g.y ≤ MAX_Y → (rgbFromGray8 k g).valid k) := by
  refine ⟨fun v fm tm hv _ hf ht => convert_channel_le v fm tm hv hf ht, ?_, ?_⟩
  · intro src dst c hc
    exact ⟨convert_channel_le _ _ _ hc.1 (MAX_R_bounds src).2 (MAX_R_bounds dst).2,
      convert_channel_le _ _ _ hc.2.1 (MAX_G_bounds src).2 (MAX_G_bounds dst).2,
      convert_channel_le _ _ _ hc.2.2 (MAX_B_bounds src).2 (MAX_B_bounds dst).2⟩
  · intro k g hg
    exact ⟨convert_channel_le _ _ _ hg (by decide) (MAX_R_bounds k).2,
      convert_channel_le _ _ _ hg (by decide) (MAX_G_bounds k).2,
      convert_channel_le _ _ _ hg (by decide) (MAX_B_bounds k).2⟩

/-- Witness for C3: a rescale upper bound, an RGB conversion and a
grayscale expansion, each at a concrete input. -/
theorem conversion_output_in_range_witness :
    convert_channel 17 31 63 ≤ 63 ∧
      (rgbFrom .rgb565 .rgb888 ⟨31, 63, 31⟩).valid .rgb888 ∧
      (rgbFromGray8 .rgb565 ⟨200⟩).valid .rgb565 :=
  ⟨conversion_output_in_range.1 17 31 63 (by decide) (by decide) (by decide)
      (by decide),
    conversion_output_in_range.2.1 .rgb565 .rgb888 ⟨31, 63, 31⟩ (by decide),
    conversion_output_in_range.2.2 .rgb565 ⟨200⟩ (by decide)⟩

/-- C7: converting between the two types of each bit-depth group with
opposite channel order leaves every channel magnitude unchanged, because
`convert_channel v m m = v` for every `v ≤ m`. -/
theorem same_depth_conversion_preserves_channels :
    (∀ v m : Nat, 1 ≤ m → m ≤ 255 → v ≤ m → convert_channel v m m = v) ∧
    (∀ p ∈ [(RgbKind.rgb555, RgbKind.bgr555), (RgbKind.bgr555, RgbKind.rgb555),
        (RgbKind.rgb565, RgbKind.bgr565), (RgbKind.bgr565, RgbKind.rgb565),
        (RgbKind.rgb888, RgbKind.bgr888), (RgbKind.bgr888, RgbKind.rgb888)],
      ∀ c : RgbVal, c.valid p.1 →
        (rgbFrom p.1 p.2 c).r = c.r ∧ (rgbFrom p.1 p.2 c).g = c.g ∧
          (rgbFrom p.1 p.2 c).b = c.b) := by
  constructor
  · exact fun v m h1 h2 hv => convert_channel_id v m h1 h2 hv
  · intro p hp c hc
    fin_cases hp <;>
      exact ⟨convert_channel_id _ _ (by decide) (by decide) hc.1,
        convert_channel_id _ _ (by decide) (by decide) hc.2.1,
        convert_channel_id _ _ (by decide) (by decide) hc.2.2⟩

/-- Witness for C7: the identity rescale at `v = 20`, `m = 31`, and the
`Rgb565 → Bgr565` conversion at the concrete value `(10, 40, 20)`. -/
theorem same_depth_conversion_preserves_channels_witness :
    convert_channel 20 31 31 = 20 ∧
      ((rgbFrom .rgb565 .bgr565 ⟨10, 40, 20⟩).r = 10 ∧
        (rgbFrom .rgb565 .bgr565 ⟨10, 40, 20⟩).g = 40 ∧
        (rgbFrom .rgb565 .bgr565 ⟨10, 40, 20⟩).b = 20) :=
  ⟨same_depth_conversion_preserves_channels.1 20 31 (by decide) (by decide)
      (by decide),
    same_depth_conversion_preserves_channels.2 (.rgb565, .bgr565) (by decide)
      ⟨10, 40, 20⟩ (by decide)⟩

set_option maxRecDepth 4000 in
/-- C1: the lower-to-higher round trip of the rescaler is the identity for
every pair of supported maxima `lo ≤ hi` from `{31, 63, 255}` and every
channel value `v ≤ lo`. -/
theorem convert_channel_roundtrip (lo hi : Nat) (hlo : lo ∈ [31, 63, 255])
    (hhi : hi ∈ [31, 63, 255]) (hle : lo ≤ hi) :
    ∀ v, v ≤ lo → convert_channel (convert_channel v lo hi) hi lo = v := by
  fin_cases hlo <;> fin_cases hhi <;> revert hle <;> decide

/-- Witness for C1 at `lo = 31`, `hi = 255`, `v = 17`. -/
theorem convert_channel_roundtrip_witness :
    (31 : Nat) ∈ [31, 63, 255] ∧ (255 : Nat) ∈ [31, 63, 255] ∧
      (31 : Nat) ≤ 255 ∧ (17 : Nat) ≤ 31 ∧
      convert_channel (convert_channel 17 31 255) 255 31 = 17 :=
  ⟨by decide, by decide, by decide, by decide,
    convert_channel_roundtrip 31 255 (by decide) (by decide) (by decide) 17
      (by decide)⟩

set_option maxRecDepth 4000 in
/-- C4: every RGB-to-RGB conversion maps each of the eight named constants
of the source type to the same-named constant of the destination type. -/
theorem rgb_constants_preserved :
    ∀ src dst : RgbKind, ∀ n : ConstName,
      rgbFrom src dst (constColor src n) = constColor dst n := by
  decide

/-- An RGB-to-RGB conversion always yields a valid destination value. -/
theorem rgbFrom_valid (src dst : RgbKind) (c : RgbVal) (hc : c.valid src) :
    (rgbFrom src dst c).valid dst :=
  ⟨convert_channel_le _ _ _ hc.1 (MAX_R_bounds src).2 (MAX_R_bounds dst).2,
    convert_channel_le _ _ _ hc.2.1 (MAX_G_bounds src).2 (MAX_G_bounds dst).2,
    convert_channel_le _ _ _ hc.2.2 (MAX_B_bounds src).2 (MAX_B_bounds dst).2⟩

/-- The 8-bit representative of a valid color is a valid `Rgb888` value. -/
theorem toRgb888_valid (k : RgbKind) (c : RgbVal) (hc : c.valid k) :
    (toRgb888 k c).valid .rgb888 := by
  cases k
  case rgb888 => exact hc
  all_goals exact rgbFrom_valid _ _ c hc

/-- C5: `Gray8::from` of any valid RGB value is the truncating average of
the three channels of its 8-bit (Rgb888) representative, with no half-up
offset; in particular red maps to luma 85 and yellow to luma 170, for
every RGB type. -/
theorem gray8_intensity_formula :
    (∀ k : RgbKind, ∀ c : RgbVal, c.valid k →
      (gray8FromRgb k c).y =
        ((toRgb888 k c).r + (toRgb888 k c).g + (toRgb888 k c).b) / 3) ∧
    (∀ k : RgbKind, gray8FromRgb k (constColor k .red) = ⟨85⟩ ∧
      gray8FromRgb k (constColor k .yellow) = ⟨170⟩) := by
  constructor
  · intro k c hc
    obtain ⟨hr, hg, hb⟩ := toRgb888_valid k c hc
    have hr' : (toRgb888 k c).r ≤ 255 := hr
    have hg' : (toRgb888 k c).g ≤ 255 := hg
    have hb' : (toRgb888 k c).b ≤ 255 := hb
    show intensity k c = _
    unfold intensity
    omega
  · decide

/-- Witness for C5 at the valid `Rgb565` value `(10, 40, 20)`. -/
theorem gray8_intensity_formula_witness :
    (RgbVal.mk 10 40 20).valid .rgb565 ∧
      (gray8FromRgb .rgb565 ⟨10, 40, 20⟩).y =
        ((toRgb888 .rgb565 ⟨10, 40, 20⟩).r + (toRgb888 .rgb565 ⟨10, 40, 20⟩).g +
          (toRgb888 .rgb565 ⟨10, 40, 20⟩).b) / 3 :=
  ⟨by decide, gray8_intensity_formula.1 .rgb565 ⟨10, 40, 20⟩ (by decide)⟩

/-- C6: `BinaryColor::from` of any valid RGB value is `on` exactly when
the 8-bit intensity (the `Gray8` luma) is at least 128, and `off` exactly
when it is below 128; in particular black and red map to `off` and white
and yellow map to `on`, for every RGB type. -/
theorem binary_threshold :
    (∀ k : RgbKind, ∀ c : RgbVal, c.valid k →
      ((binaryFromRgb k c = BinaryColor.on ↔ 128 ≤ (gray8FromRgb k c).y) ∧
        (binaryFromRgb k c = BinaryColor.off ↔ (gray8FromRgb k c).y < 128))) ∧
    (∀ k : RgbKind,
      binaryFromRgb k (constColor k .black) = BinaryColor.off ∧
        binaryFromRgb k (constColor k .red) = BinaryColor.off ∧
        binaryFromRgb k (constColor k .white) = BinaryColor.on ∧
        binaryFromRgb k (constColor k .yellow) = BinaryColor.on) := by
  constructor
  · intro k c _
    unfold binaryFromRgb gray8FromRgb
    split <;> simp_all
  · decide

/-- Witness for C6 at the valid `Rgb565` value `(10, 40, 20)`. -/
theorem binary_threshold_witness :
    (RgbVal.mk 10 40 20).valid .rgb565 ∧
      (binaryFromRgb .rgb565 ⟨10, 40, 20⟩ = BinaryColor.on ↔
        128 ≤ (gray8FromRgb .rgb565 ⟨10, 40, 20⟩).y) ∧
      (binaryFromRgb .rgb565 ⟨10, 40, 20⟩ = BinaryColor.off ↔
        (gray8FromRgb .rgb565 ⟨10, 40, 20⟩).y < 128) :=
  ⟨by decide, binary_threshold.1 .rgb565 ⟨10, 40, 20⟩ (by decide)⟩

set_option maxRecDepth 8000 in
/-- C10: every gray level `g ≤ 255` round-trips exactly through `Rgb888`
and through `Bgr888`: expanding `Gray8::new(g)` to the 8-8-8 type and
reducing back to `Gray8` reproduces `g`. -/
theorem gray8_rgb888_roundtrip :
    ∀ g : Nat, g ≤ 255 →
      gray8FromRgb .rgb888 (rgbFromGray8 .rgb888 ⟨g⟩) = ⟨g⟩ ∧
        gray8FromRgb .bgr888 (rgbFromGray8 .bgr888 ⟨g⟩) = ⟨g⟩ := by
  decide

/-- Witness for C10 at `g = 100`. -/
theorem gray8_rgb888_roundtrip_witness :
    (100 : Nat) ≤ 255 ∧
      (gray8FromRgb .rgb888 (rgbFromGray8 .rgb888 ⟨100⟩) = ⟨100⟩ ∧
        gray8FromRgb .bgr888 (rgbFromGray8 .bgr888 ⟨100⟩) = ⟨100⟩) :=
  ⟨by decide, gray8_rgb888_roundtrip 100 (by decide)⟩
